import Mathlib

/-!
Shallow embedding of the oauth2-broker crate core: validated identifiers and
scope sets, token records and their lifecycle, the in-memory store's
compare-and-swap, cached-request freshness evaluation, the default provider
error classifier, and the client-credentials / refresh flow orchestration.
Each definition mirrors the Rust source item named in its doc comment.
-/

deriving instance DecidableEq for Except

namespace OAuth2Broker

/-! Instants model `time::OffsetDateTime` as a signed nanosecond count since
the epoch, and durations model `time::Duration` the same way; both are plain
`Int`.  The `time` crate's (i64 seconds, i32 nanoseconds) representation only
overflows far outside any range exercised by the broker, so overflow is not
modeled and `Duration::checked_sub` is plain subtraction. -/

def nsPerSec : Int := 1000000000

def i64MaxNat : Nat := 9223372036854775807

def u64MaxNat : Nat := 18446744073709551615

/-- The Unicode `White_Space` code points: the set accepted by Rust
`char::is_whitespace`, used by both identifier and scope validation. -/
def rustIsWhitespace (c : Char) : Bool :=
  let n := c.toNat
  (decide (0x09 ≤ n) && decide (n ≤ 0x0D)) || n == 0x20 || n == 0x85 || n == 0xA0 ||
    n == 0x1680 || (decide (0x2000 ≤ n) && decide (n ≤ 0x200A)) || n == 0x2028 ||
    n == 0x2029 || n == 0x202F || n == 0x205F || n == 0x3000

/-- UTF-8 encoding of one Unicode scalar value.  Rust `str` is UTF-8 and
`str::len` counts these bytes. -/
def utf8EncodeChar (c : Char) : List Nat :=
  let n := c.toNat
  if n < 0x80 then [n]
  else if n < 0x800 then [0xC0 + n / 0x40, 0x80 + n % 0x40]
  else if n < 0x10000 then
    [0xE0 + n / 0x1000, 0x80 + n / 0x40 % 0x40, 0x80 + n % 0x40]
  else
    [0xF0 + n / 0x40000, 0x80 + n / 0x1000 % 0x40, 0x80 + n / 0x40 % 0x40, 0x80 + n % 0x40]

/-- The UTF-8 bytes of a string, as `str::as_bytes` exposes them. -/
def strBytes (s : String) : List Nat := (s.data.map utf8EncodeChar).flatten

/-- Rust `str::len`: the UTF-8 byte length. -/
def utf8Len (s : String) : Nat := (strBytes s).length

/-! SHA-256 over byte lists, mirroring the `sha2` crate used by
`compute_fingerprint` in src/auth/scope.rs.  Words are `Nat` kept below
`2 ^ 32` by explicit reduction. -/

def w32 : Nat := 4294967296

def rotr32 (n x : Nat) : Nat := (x >>> n) ||| (x <<< (32 - n) % w32)

def bigSigma0 (x : Nat) : Nat := rotr32 2 x ^^^ rotr32 13 x ^^^ rotr32 22 x

def bigSigma1 (x : Nat) : Nat := rotr32 6 x ^^^ rotr32 11 x ^^^ rotr32 25 x

def smallSigma0 (x : Nat) : Nat := rotr32 7 x ^^^ rotr32 18 x ^^^ (x >>> 3)

def smallSigma1 (x : Nat) : Nat := rotr32 17 x ^^^ rotr32 19 x ^^^ (x >>> 10)

def chVal (x y z : Nat) : Nat := (x &&& y) ^^^ ((x ^^^ (w32 - 1)) &&& z)

def majVal (x y z : Nat) : Nat := (x &&& y) ^^^ (x &&& z) ^^^ (y &&& z)

def sha256K : List Nat :=
  [1116352408, 1899447441, 3049323471, 3921009573, 961987163, 1508970993, 2453635748,
   2870763221, 3624381080, 310598401, 607225278, 1426881987, 1925078388, 2162078206, 2614888103,
   3248222580, 3835390401, 4022224774, 264347078, 604807628, 770255983, 1249150122, 1555081692,
   1996064986, 2554220882, 2821834349, 2952996808, 3210313671, 3336571891, 3584528711,
   113926993, 338241895, 666307205, 773529912, 1294757372, 1396182291, 1695183700, 1986661051,
   2177026350, 2456956037, 2730485921, 2820302411, 3259730800, 3345764771, 3516065817,
   3600352804, 4094571909, 275423344, 430227734, 506948616, 659060556, 883997877, 958139571,
   1322822218, 1537002063, 1747873779, 1955562222, 2024104815, 2227730452, 2361852424,
   2428436474, 2756734187, 3204031479, 3329325298]

/-- Appends the 0x80 marker, zero padding, and the 64-bit big-endian bit
length so the message length becomes a multiple of 64 bytes. -/
def sha256Pad (msg : List Nat) : List Nat :=
  let len := msg.length
  let zeros := (119 - len % 64) % 64
  let bitLen := len * 8
  msg ++ [0x80] ++ List.replicate zeros 0 ++
    [bitLen / 2 ^ 56 % 256, bitLen / 2 ^ 48 % 256, bitLen / 2 ^ 40 % 256,
     bitLen / 2 ^ 32 % 256, bitLen / 2 ^ 24 % 256, bitLen / 2 ^ 16 % 256,
     bitLen / 2 ^ 8 % 256, bitLen % 256]

/-- Big-endian 32-bit words from a byte list whose length is a multiple of 4. -/
def bytesToWords : List Nat → List Nat
  | b0 :: b1 :: b2 :: b3 :: rest =>
    (((b0 * 256 + b1) * 256 + b2) * 256 + b3) :: bytesToWords rest
  | _ => []

/-- Extends the message schedule; `acc` holds the words produced so far in
reverse order (most recent first). -/
def extendSchedule : Nat → List Nat → List Nat
  | 0, acc => acc
  | n + 1, acc =>
    let nw := (smallSigma1 (acc.getD 1 0) + acc.getD 6 0 + smallSigma0 (acc.getD 14 0) +
      acc.getD 15 0) % w32
    extendSchedule n (nw :: acc)

def messageSchedule (block : List Nat) : List Nat :=
  (extendSchedule 48 block.reverse).reverse

structure Sha256State where
  a : Nat
  b : Nat
  c : Nat
  d : Nat
  e : Nat
  f : Nat
  g : Nat
  h : Nat

def compressRound (st : Sha256State) (wk : Nat × Nat) : Sha256State :=
  let t1 := (st.h + bigSigma1 st.e + chVal st.e st.f st.g + wk.2 + wk.1) % w32
  let t2 := (bigSigma0 st.a + majVal st.a st.b st.c) % w32
  ⟨(t1 + t2) % w32, st.a, st.b, st.c, (st.d + t1) % w32, st.e, st.f, st.g⟩

def compressBlock (hs : Sha256State) (block : List Nat) : Sha256State :=
  let st := (List.zip (messageSchedule block) sha256K).foldl compressRound hs
  ⟨(hs.a + st.a) % w32, (hs.b + st.b) % w32, (hs.c + st.c) % w32, (hs.d + st.d) % w32,
   (hs.e + st.e) % w32, (hs.f + st.f) % w32, (hs.g + st.g) % w32, (hs.h + st.h) % w32⟩

def wordChunks (l : List Nat) : List (List Nat) :=
  if h : l = [] then [] else l.take 16 :: wordChunks (l.drop 16)
termination_by l.length
decreasing_by
  cases l with
  | nil => exact absurd rfl h
  | cons x xs => simp only [List.length_drop, List.length_cons]; omega

def sha256InitState : Sha256State :=
  ⟨1779033703, 3144134277, 1013904242, 2773480762, 1359893119, 2600822924, 528734635,
   1541459225⟩

def wordBytes (w : Nat) : List Nat :=
  [w / 2 ^ 24 % 256, w / 2 ^ 16 % 256, w / 2 ^ 8 % 256, w % 256]

/-- SHA-256 digest (32 bytes) of a byte list. -/
def sha256 (msg : List Nat) : List Nat :=
  let st := (wordChunks (bytesToWords (sha256Pad msg))).foldl compressBlock sha256InitState
  wordBytes st.a ++ wordBytes st.b ++ wordBytes st.c ++ wordBytes st.d ++ wordBytes st.e ++
    wordBytes st.f ++ wordBytes st.g ++ wordBytes st.h

/-- Standard base64 alphabet lookup, as `base64::engine::general_purpose::STANDARD_NO_PAD`. -/
def b64Char (n : Nat) : Char :=
  "ABCDEFGHIJKLMNOPQRSTUVWXYZabcdefghijklmnopqrstuvwxyz0123456789+/".data.getD n 'A'

/-- Unpadded standard base64 encoding of a byte list. -/
def base64NoPad : List Nat → List Char
  | b0 :: b1 :: b2 :: rest =>
    b64Char (b0 / 4) :: b64Char (b0 % 4 * 16 + b1 / 16) :: b64Char (b1 % 16 * 4 + b2 / 64) ::
      b64Char (b2 % 64) :: base64NoPad rest
  | [b0, b1] => [b64Char (b0 / 4), b64Char (b0 % 4 * 16 + b1 / 16), b64Char (b1 % 16 * 4)]
  | [b0] => [b64Char (b0 / 4), b64Char (b0 % 4 * 16)]
  | [] => []

/-- Mirrors `compute_fingerprint` from src/auth/scope.rs: unpadded base64 of the
SHA-256 digest of the space-joined normalized scope list. -/
def compute_fingerprint (scopes : List String) : String :=
  String.mk (base64NoPad (sha256 (strBytes (String.intercalate " " scopes))))

/-! Identifier value types from src/auth/id.rs. -/

/-- Mirrors `IdentifierError` from src/auth/id.rs. -/
inductive IdentifierError where
  | Empty (kind : String)
  | ContainsWhitespace (kind : String)
  | TooLong (kind : String) (max : Nat)
deriving DecidableEq

def IDENTIFIER_MAX_LEN : Nat := 128

/-- Mirrors `validate_view` from src/auth/id.rs: rejects empty strings, strings with
any Unicode whitespace character, and strings whose UTF-8 byte length
(Rust `str::len`) exceeds `IDENTIFIER_MAX_LEN`. -/
def validate_view (kind : String) (view : String) : Except IdentifierError Unit :=
  if view = "" then .error (.Empty kind)
  else if view.data.any rustIsWhitespace then .error (.ContainsWhitespace kind)
  else if utf8Len view > IDENTIFIER_MAX_LEN then .error (.TooLong kind IDENTIFIER_MAX_LEN)
  else .ok ()

/-- Mirrors `TenantId` from src/auth/id.rs (via the `def_id!` macro). -/
structure TenantId where
  value : String
deriving DecidableEq

def TenantId.new (v : String) : Except IdentifierError TenantId :=
  (validate_view "Tenant" v).map fun _ => ⟨v⟩

/-- Mirrors `PrincipalId` from src/auth/id.rs (via the `def_id!` macro). -/
structure PrincipalId where
  value : String
deriving DecidableEq

def PrincipalId.new (v : String) : Except IdentifierError PrincipalId :=
  (validate_view "Principal" v).map fun _ => ⟨v⟩

/-- Mirrors `ProviderId` from src/auth/id.rs (via the `def_id!` macro). -/
structure ProviderId where
  value : String
deriving DecidableEq

def ProviderId.new (v : String) : Except IdentifierError ProviderId :=
  (validate_view "Provider" v).map fun _ => ⟨v⟩

/-! Scope sets from src/auth/scope.rs. -/

/-- Mirrors `ScopeValidationError` from src/auth/scope.rs. -/
inductive ScopeValidationError where
  | Empty
  | ContainsWhitespace (scope : String)
deriving DecidableEq

/-- Code-point lexicographic comparison of character lists.  For UTF-8
strings this coincides with the byte-lexicographic `Ord` that
`BTreeSet<String>` sorts by. -/
def charListLt : List Char → List Char → Bool
  | _, [] => false
  | [], _ :: _ => true
  | c1 :: r1, c2 :: r2 =>
    if c1.toNat < c2.toNat then true
    else if c2.toNat < c1.toNat then false
    else charListLt r1 r2

/-- The strict order of `BTreeSet<String>`. -/
def strLt (a b : String) : Bool := charListLt a.data b.data

/-- Insertion into a `BTreeSet<String>` modeled as a strictly sorted list. -/
def insertSorted (x : String) : List String → List String
  | [] => [x]
  | y :: ys =>
    if strLt x y then x :: y :: ys else if x = y then y :: ys else y :: insertSorted x ys

/-- The validating loop of `normalize` from src/auth/scope.rs, folding each
scope into the sorted set. -/
def normalizeAux (acc : List String) : List String → Except ScopeValidationError (List String)
  | [] => .ok acc
  | s :: rest =>
    if s = "" then .error .Empty
    else if s.data.any rustIsWhitespace then .error (.ContainsWhitespace s)
    else normalizeAux (insertSorted s acc) rest

/-- Mirrors `normalize` from src/auth/scope.rs: validate every scope, deduplicate into
a sorted set, and freeze the result. -/
def normalize (scopes : List String) : Except ScopeValidationError (List String) :=
  normalizeAux [] scopes

/-- Mirrors `ScopeSet` from src/auth/scope.rs.  The `OnceLock` fingerprint cache is
not modeled: `fingerprint` is a pure function of the normalized scopes. -/
structure ScopeSet where
  scopes : List String
deriving DecidableEq

def ScopeSet.new (l : List String) : Except ScopeValidationError ScopeSet :=
  (normalize l).map ScopeSet.mk

def ScopeSet.is_empty (s : ScopeSet) : Bool := s.scopes.isEmpty

/-- Mirrors `ScopeSet::normalized`: space-joined scope list. -/
def ScopeSet.normalized (s : ScopeSet) : String := String.intercalate " " s.scopes

/-- Mirrors `ScopeSet::fingerprint`. -/
def ScopeSet.fingerprint (s : ScopeSet) : String := compute_fingerprint s.scopes

/-! Token family, secret, record and builder from src/auth/token. -/

/-- Mirrors `TokenFamily` from src/auth/token/family.rs. -/
structure TokenFamily where
  tenant : TenantId
  principal : PrincipalId
  provider : Option ProviderId
deriving DecidableEq

def TokenFamily.new (t : TenantId) (p : PrincipalId) : TokenFamily := ⟨t, p, none⟩

/-- Mirrors `TokenSecret` from src/auth/token/secret.rs. -/
structure TokenSecret where
  value : String
deriving DecidableEq

def TokenSecret.new (v : String) : TokenSecret := ⟨v⟩

def TokenSecret.expose (s : TokenSecret) : String := s.value

/-- Mirrors `TokenStatus` from src/auth/token/record.rs. -/
inductive TokenStatus where
  | Pending
  | Active
  | Expired
  | Revoked
deriving DecidableEq

/-- Mirrors `TokenRecordBuilderError` from src/auth/token/record.rs. -/
inductive TokenRecordBuilderError where
  | MissingAccessToken
  | MissingExpiry
deriving DecidableEq

/-- Mirrors `TokenRecord` from src/auth/token/record.rs. -/
structure TokenRecord where
  family : TokenFamily
  scope : ScopeSet
  access_token : TokenSecret
  refresh_token : Option TokenSecret
  issued_at : Int
  expires_at : Int
  revoked_at : Option Int
deriving DecidableEq

/-- Mirrors `TokenRecord::status_at`. -/
def TokenRecord.status_at (r : TokenRecord) (instant : Int) : TokenStatus :=
  if r.revoked_at.isSome then .Revoked
  else if instant < r.issued_at then .Pending
  else if instant ≥ r.expires_at then .Expired
  else .Active

/-- Mirrors `TokenRecord::is_pending_at`. -/
def TokenRecord.is_pending_at (r : TokenRecord) (instant : Int) : Bool :=
  r.status_at instant == .Pending

/-- Mirrors `TokenRecord::is_expired_at`. -/
def TokenRecord.is_expired_at (r : TokenRecord) (instant : Int) : Bool :=
  r.status_at instant == .Expired

/-- Mirrors `TokenRecord::is_revoked`. -/
def TokenRecord.is_revoked (r : TokenRecord) : Bool := r.revoked_at.isSome

/-- Mirrors `TokenRecord::revoke`: sets `revoked_at` (mutation modeled functionally). -/
def TokenRecord.revoke (r : TokenRecord) (instant : Int) : TokenRecord :=
  { r with revoked_at := some instant }

/-- Mirrors `TokenRecordBuilder` from src/auth/token/record.rs. -/
structure TokenRecordBuilder where
  family : TokenFamily
  scope : ScopeSet
  access_token : Option TokenSecret
  refresh_token : Option TokenSecret
  issued_at : Option Int
  expires_at : Option Int
  expires_in : Option Int
deriving DecidableEq

/-- Mirrors `TokenRecord::builder` / `TokenRecordBuilder::new`. -/
def TokenRecord.builder (family : TokenFamily) (scope : ScopeSet) : TokenRecordBuilder :=
  ⟨family, scope, none, none, none, none, none⟩

def TokenRecordBuilder.issued_at_set (b : TokenRecordBuilder) (instant : Int) :
    TokenRecordBuilder :=
  { b with issued_at := some instant }

def TokenRecordBuilder.expires_at_set (b : TokenRecordBuilder) (instant : Int) :
    TokenRecordBuilder :=
  { b with expires_at := some instant }

def TokenRecordBuilder.expires_in_set (b : TokenRecordBuilder) (duration : Int) :
    TokenRecordBuilder :=
  { b with expires_in := some duration }

def TokenRecordBuilder.access_token_set (b : TokenRecordBuilder) (token : String) :
    TokenRecordBuilder :=
  { b with access_token := some (TokenSecret.new token) }

def TokenRecordBuilder.refresh_token_set (b : TokenRecordBuilder) (token : String) :
    TokenRecordBuilder :=
  { b with refresh_token := some (TokenSecret.new token) }

/-- Mirrors `TokenRecordBuilder::build`.  `now` stands for the `OffsetDateTime::now_utc()`
read used only when no `issued_at` was supplied. -/
def TokenRecordBuilder.build (b : TokenRecordBuilder) (now : Int) :
    Except TokenRecordBuilderError TokenRecord :=
  match b.access_token with
  | none => .error .MissingAccessToken
  | some access_token =>
    let issued_at := b.issued_at.getD now
    match b.expires_at, b.expires_in with
    | some instant, _ =>
      .ok ⟨b.family, b.scope, access_token, b.refresh_token, issued_at, instant, none⟩
    | none, some delta =>
      .ok ⟨b.family, b.scope, access_token, b.refresh_token, issued_at, issued_at + delta, none⟩
    | none, none => .error .MissingExpiry

/-! Store contracts from src/store.rs and the in-memory backend from
src/store/memory.rs. -/

/-- Mirrors `CompareAndSwapOutcome` from src/store.rs. -/
inductive CompareAndSwapOutcome where
  | Updated
  | RefreshMismatch
  | Missing
deriving DecidableEq

/-- Mirrors `StoreError` from src/store.rs. -/
inductive StoreError where
  | Serialization (message : String)
  | Backend (message : String)
deriving DecidableEq

/-- Mirrors `StoreKey` from src/store.rs. -/
structure StoreKey where
  family : TokenFamily
  scope_fingerprint : String
deriving DecidableEq

/-- Mirrors `StoreKey::new`. -/
def StoreKey.new (family : TokenFamily) (scope : ScopeSet) : StoreKey :=
  ⟨family, scope.fingerprint⟩

/-- The `HashMap<StoreKey, TokenRecord>` inside `MemoryStore`, modeled by its
lookup function. -/
def StoreMap := StoreKey → Option TokenRecord

/-- Mirrors `HashMap::insert` on the lookup-function model. -/
def mapInsert (m : StoreMap) (key : StoreKey) (record : TokenRecord) : StoreMap :=
  fun k => if k = key then some record else m k

/-- Mirrors `MemoryStore::refresh_matches` from src/store/memory.rs. -/
def refresh_matches (current : Option TokenSecret) (expected : Option String) : Bool :=
  match current.map TokenSecret.expose, expected with
  | none, none => true
  | some cur, some exp => cur == exp
  | _, _ => false

/-- Mirrors `MemoryStore::save_now` from src/store/memory.rs. -/
def save_now (map : StoreMap) (record : TokenRecord) : StoreMap :=
  mapInsert map (StoreKey.new record.family record.scope) record

/-- Mirrors `MemoryStore::fetch_now` from src/store/memory.rs. -/
def fetch_now (map : StoreMap) (family : TokenFamily) (scope : ScopeSet) : Option TokenRecord :=
  map (StoreKey.new family scope)

/-- Mirrors `MemoryStore::cas_now` from src/store/memory.rs. -/
def cas_now (map : StoreMap) (family : TokenFamily) (scope : ScopeSet)
    (expected_refresh : Option String) (replacement : TokenRecord) :
    StoreMap × CompareAndSwapOutcome :=
  let key := StoreKey.new family scope
  let outcome : CompareAndSwapOutcome :=
    match map key with
    | some existing =>
      if refresh_matches existing.refresh_token expected_refresh then .Updated
      else .RefreshMismatch
    | none => .Missing
  if outcome = .Updated then (mapInsert map key replacement, outcome) else (map, outcome)

/-- Mirrors `MemoryStore::revoke_now` from src/store/memory.rs. -/
def revoke_now (map : StoreMap) (family : TokenFamily) (scope : ScopeSet) (instant : Int) :
    StoreMap × Option TokenRecord :=
  let key := StoreKey.new family scope
  match map key with
  | some record =>
    let revoked := record.revoke instant
    (mapInsert map key revoked, some revoked)
  | none => (map, none)

/-! Cached-request freshness evaluation from src/flows/common.rs. -/

/-- Mirrors `time::Duration::whole_seconds`: truncating division toward zero. -/
def whole_seconds (d : Int) : Int := Int.tdiv d nsPerSec

/-- Mirrors `CachedTokenRequest` from src/flows/common.rs. -/
structure CachedTokenRequest where
  tenant : TenantId
  principal : PrincipalId
  scope : ScopeSet
  force : Bool
  preemptive_window : Int
deriving DecidableEq

def DEFAULT_PREEMPTIVE_WINDOW : Int := 60 * nsPerSec

/-- Mirrors `CachedTokenRequest::new`. -/
def CachedTokenRequest.new (tenant : TenantId) (principal : PrincipalId) (scope : ScopeSet) :
    CachedTokenRequest :=
  ⟨tenant, principal, scope, false, DEFAULT_PREEMPTIVE_WINDOW⟩

/-- Mirrors `CachedTokenRequest::with_preemptive_window`: negative windows clamp to zero. -/
def CachedTokenRequest.with_preemptive_window (req : CachedTokenRequest) (window : Int) :
    CachedTokenRequest :=
  { req with preemptive_window := if window < 0 then 0 else window }

/-- Mirrors `CachedTokenRequest::preemptive_jitter`.  `seed` stands for the u64 output
of `jitter_seed`, the `DefaultHasher` digest of (tenant, principal, scope);
the standard library SipHash internals are abstracted into this parameter,
an opaque deterministic function of the request tuple. -/
def preemptive_jitter (window : Int) (seed : Nat) : Int :=
  let window_secs := whole_seconds window
  if window_secs ≤ 1 then 0
  else
    let modulus : Nat := if window_secs ≤ (u64MaxNat : Int) then window_secs.toNat else u64MaxNat
    if modulus = 0 then 0
    else
      let jitter_secs := seed % modulus
      if jitter_secs = 0 then 0
      else
        let clamped : Nat := if jitter_secs ≤ i64MaxNat then jitter_secs else i64MaxNat
        (clamped : Int) * nsPerSec

/-- Mirrors `CachedTokenRequest::effective_preemptive_window`.  `Duration::checked_sub`
returns `None` only on representation overflow, which the Int model cannot
exhibit, so it is plain subtraction. -/
def effective_preemptive_window (window : Int) (seed : Nat) : Int :=
  window - preemptive_jitter window seed

/-- Mirrors `CachedTokenRequest::should_refresh`. -/
def CachedTokenRequest.should_refresh (req : CachedTokenRequest) (seed : Nat)
    (record : TokenRecord) (now : Int) : Bool :=
  if req.force || record.is_revoked || record.is_expired_at now then true
  else
    let effective_window := effective_preemptive_window req.preemptive_window seed
    if effective_window = 0 then false
    else decide (record.expires_at - now ≤ effective_window)

/-- Jitter as the freshness claim words it: the 64-bit hash of the tuple
modulo `max(window_in_seconds, 1)`, clamped to i64. -/
def spec_jitter (window : Int) (seed : Nat) : Int :=
  let m : Int := max (whole_seconds window) 1
  let jitter_secs := seed % m.toNat
  let clamped : Nat := if jitter_secs ≤ i64MaxNat then jitter_secs else i64MaxNat
  (clamped : Int) * nsPerSec

/-- Effective window as the freshness claim words it: `preemptive_window -
jitter` clamped to zero. -/
def spec_effective_window (window : Int) (seed : Nat) : Int :=
  max 0 (window - spec_jitter window seed)

/-- The freshness predicate exactly as the claim states it: true when forced,
revoked, expired, or `expires_at - now ≤ effective_window`. -/
def spec_should_refresh (req : CachedTokenRequest) (seed : Nat) (record : TokenRecord)
    (now : Int) : Bool :=
  req.force || record.is_revoked || record.is_expired_at now ||
    decide (record.expires_at - now ≤ spec_effective_window req.preemptive_window seed)

/-! Provider strategy classification from src/provider/strategy.rs. -/

/-- Mirrors `GrantType` from src/provider/descriptor/grant.rs. -/
inductive GrantType where
  | AuthorizationCode
  | RefreshToken
  | ClientCredentials
deriving DecidableEq

/-- Mirrors `ProviderErrorKind` from src/provider/strategy.rs. -/
inductive ProviderErrorKind where
  | InvalidGrant
  | InvalidClient
  | InsufficientScope
  | Transient
deriving DecidableEq

/-- Mirrors `ProviderErrorContext` from src/provider/strategy.rs. -/
structure ProviderErrorContext where
  grant_type : GrantType
  http_status : Option Nat
  oauth_error : Option String
  error_description : Option String
  body_preview : Option String
  network_error : Bool
deriving DecidableEq

def asciiLowerChar (c : Char) : Char :=
  if decide ('A' ≤ c) && decide (c ≤ 'Z') then Char.ofNat (c.toNat + 32) else c

/-- Rust `str::to_ascii_lowercase`. -/
def to_ascii_lowercase (s : String) : String := String.mk (s.data.map asciiLowerChar)

/-- Rust `str::eq_ignore_ascii_case`: equality after ASCII lowercasing. -/
def eq_ignore_ascii_case (a b : String) : Bool :=
  to_ascii_lowercase a == to_ascii_lowercase b

def listPrefixOf : List Char → List Char → Bool
  | [], _ => true
  | _ :: _, [] => false
  | x :: xs, y :: ys => x == y && listPrefixOf xs ys

def containsAux (needle : List Char) : List Char → Bool
  | [] => listPrefixOf needle []
  | c :: rest => listPrefixOf needle (c :: rest) || containsAux needle rest

/-- Rust `str::contains` with a string pattern.  Every needle the classifier
scans for is ASCII, for which byte-level and code-point-level substring search
agree. -/
def strContains (haystack needle : String) : Bool :=
  containsAux needle.data haystack.data

/-- Mirrors `match_exact_value` from src/provider/strategy.rs. -/
def match_exact_value (value : String) : Option ProviderErrorKind :=
  if eq_ignore_ascii_case value "invalid_grant" || eq_ignore_ascii_case value "access_denied" then
    some .InvalidGrant
  else if eq_ignore_ascii_case value "invalid_client" ||
      eq_ignore_ascii_case value "unauthorized_client" then
    some .InvalidClient
  else if eq_ignore_ascii_case value "invalid_scope" ||
      eq_ignore_ascii_case value "insufficient_scope" then
    some .InsufficientScope
  else if eq_ignore_ascii_case value "temporarily_unavailable" ||
      eq_ignore_ascii_case value "server_error" then
    some .Transient
  else none

/-- Mirrors `classify_body` from src/provider/strategy.rs. -/
def classify_body (body : Option String) : Option ProviderErrorKind :=
  match body with
  | none => none
  | some body =>
    let lowered := to_ascii_lowercase body
    if strContains lowered "invalid_grant" then some .InvalidGrant
    else if strContains lowered "invalid_client" then some .InvalidClient
    else if strContains lowered "insufficient_scope" || strContains lowered "invalid_scope" then
      some .InsufficientScope
    else if strContains lowered "temporarily_unavailable" || strContains lowered "retry" then
      some .Transient
    else none

/-- Mirrors `classify_oauth_error` from src/provider/strategy.rs. -/
def classify_oauth_error (oauth_error error_description : Option String) :
    Option ProviderErrorKind :=
  match oauth_error.bind match_exact_value with
  | some kind => some kind
  | none =>
    match error_description.bind match_exact_value with
    | some kind => some kind
    | none => classify_body error_description

/-- Mirrors `classify_status` from src/provider/strategy.rs. -/
def classify_status (status : Option Nat) : ProviderErrorKind :=
  match status with
  | some 400 => .InvalidGrant
  | some 404 => .InvalidGrant
  | some 410 => .InvalidGrant
  | some 401 => .InvalidClient
  | some 403 => .InsufficientScope
  | some 429 => .Transient
  | some code => if code ≥ 500 then .Transient else .Transient
  | none => .Transient

/-- Mirrors `DefaultProviderStrategy::classify_token_error` from src/provider/strategy.rs. -/
def classify_token_error (ctx : ProviderErrorContext) : ProviderErrorKind :=
  if ctx.network_error then .Transient
  else
    match classify_oauth_error ctx.oauth_error ctx.error_description with
    | some kind => kind
    | none =>
      match classify_body ctx.body_preview with
      | some kind => kind
      | none => classify_status ctx.http_status

/-- The exact-match token table the spec lists for step 2 of the precedence. -/
def specExactTokens : List (String × ProviderErrorKind) :=
  [("invalid_grant", .InvalidGrant), ("access_denied", .InvalidGrant),
   ("invalid_client", .InvalidClient), ("unauthorized_client", .InvalidClient),
   ("invalid_scope", .InsufficientScope), ("insufficient_scope", .InsufficientScope),
   ("temporarily_unavailable", .Transient), ("server_error", .Transient)]

/-- Case-insensitive exact match against a token table, as the spec words it. -/
def spec_exact_match (value : String) : Option ProviderErrorKind :=
  specExactTokens.findSome? fun tk =>
    if eq_ignore_ascii_case value tk.1 then some tk.2 else none

/-- Substring scan over the tokens of a table, as the spec words step 4. -/
def spec_scan (tokens : List (String × ProviderErrorKind)) (value : String) :
    Option ProviderErrorKind :=
  let lowered := to_ascii_lowercase value
  tokens.findSome? fun tk => if strContains lowered tk.1 then some tk.2 else none

/-- The substring tokens as the claim states them: all of the step-2 tokens
plus `retry`. -/
def specClaimScanTokens : List (String × ProviderErrorKind) :=
  specExactTokens ++ [("retry", .Transient)]

/-- The substring tokens the code actually scans for: `access_denied`,
`unauthorized_client` and `server_error` are absent. -/
def specAmendedScanTokens : List (String × ProviderErrorKind) :=
  [("invalid_grant", .InvalidGrant), ("invalid_client", .InvalidClient),
   ("insufficient_scope", .InsufficientScope), ("invalid_scope", .InsufficientScope),
   ("temporarily_unavailable", .Transient), ("retry", .Transient)]

/-- Status fallback as the spec words step 5. -/
def spec_status_fallback (status : Option Nat) : ProviderErrorKind :=
  match status with
  | some 400 => .InvalidGrant
  | some 404 => .InvalidGrant
  | some 410 => .InvalidGrant
  | some 401 => .InvalidClient
  | some 403 => .InsufficientScope
  | some 429 => .Transient
  | some code => if code ≥ 500 then .Transient else .Transient
  | none => .Transient

/-- Classification precedence exactly as the spec lists it, parameterized by
the substring token table: network, exact `oauth_error`, exact
`error_description`, substring scan of `error_description`, substring scan of
`body_preview`, status fallback. -/
def spec_classify (tokens : List (String × ProviderErrorKind)) (ctx : ProviderErrorContext) :
    ProviderErrorKind :=
  if ctx.network_error then .Transient
  else
    match ctx.oauth_error.bind spec_exact_match with
    | some kind => kind
    | none =>
      match ctx.error_description.bind spec_exact_match with
      | some kind => kind
      | none =>
        match ctx.error_description.bind (spec_scan tokens) with
        | some kind => kind
        | none =>
          match ctx.body_preview.bind (spec_scan tokens) with
          | some kind => kind
          | none => spec_status_fallback ctx.http_status

/-- The classifier as the claim states it. -/
def spec_classify_claim (ctx : ProviderErrorContext) : ProviderErrorKind :=
  spec_classify specClaimScanTokens ctx

/-- The classifier with the substring token table the code actually uses. -/
def spec_classify_amended (ctx : ProviderErrorContext) : ProviderErrorKind :=
  spec_classify specAmendedScanTokens ctx

/-! Broker error taxonomy from src/error.rs, restricted to the variants the
modeled flows construct or inspect; payload details the flows never examine
are plain strings. -/

/-- Mirrors `ConfigError` from src/error.rs (flow-relevant variants; the remaining
constructors are represented by `Other`). -/
inductive ConfigError where
  | UnsupportedGrant (descriptor : String) (grant : String)
  | MissingRefreshToken
  | TokenBuild (e : TokenRecordBuilderError)
  | Other (message : String)
deriving DecidableEq

/-- Mirrors `Error` from src/error.rs. -/
inductive BrokerError where
  | Storage (e : StoreError)
  | Config (e : ConfigError)
  | Transient (message : String)
  | Transport (message : String)
  | InsufficientScope (reason : String)
  | InvalidGrant (reason : String)
  | InvalidClient (reason : String)
  | Revoked
deriving DecidableEq

/-- The `matches!(err, Error::InvalidGrant .. | Error::Revoked)` test from
src/flows/refresh.rs. -/
def is_invalid_grant_or_revoked (e : BrokerError) : Bool :=
  match e with
  | .InvalidGrant _ => true
  | .Revoked => true
  | _ => false

/-- A `BrokerStore` implementation, mirroring the async trait of src/store.rs
as explicit state passing: each operation threads a backend state and may
fail with a `StoreError`. -/
structure StoreOps (σ : Type) where
  fetch : σ → TokenFamily → ScopeSet → σ × Except StoreError (Option TokenRecord)
  save : σ → TokenRecord → σ × Except StoreError Unit
  cas : σ → TokenFamily → ScopeSet → Option String → TokenRecord →
    σ × Except StoreError CompareAndSwapOutcome
  revoke : σ → TokenFamily → ScopeSet → Int → σ × Except StoreError (Option TokenRecord)

/-- Mirrors `MemoryStore` (src/store/memory.rs) as a `StoreOps` instance over the
lookup-function map: every operation succeeds. -/
def memOps : StoreOps StoreMap where
  fetch := fun s family scope => (s, .ok (fetch_now s family scope))
  save := fun s record => (save_now s record, .ok ())
  cas := fun s family scope expected replacement =>
    let out := cas_now s family scope expected replacement
    (out.1, .ok out.2)
  revoke := fun s family scope instant =>
    let out := revoke_now s family scope instant
    (out.1, .ok out.2)

/-- Environment of `Broker::refresh_access_token`: store backend, grant
support flag, descriptor id, facade construction outcome, and the outcome of
the nth `facade.refresh_token` exchange.  The transport is external, so its
responses are parameters indexed by invocation count. -/
structure RefreshEnv (σ : Type) where
  ops : StoreOps σ
  supports_refresh : Bool
  descriptor_id : ProviderId
  facade_build : Except BrokerError Unit
  facade : Nat → Except BrokerError (TokenRecord × Option String)

/-- Result of one flow body: final store state, token-endpoint invocation
count, and the caller-visible outcome. -/
structure FlowOut (σ : Type) where
  store : σ
  transport_calls : Nat
  result : Except BrokerError TokenRecord

/-- The rebuild step of src/flows/refresh.rs (the `updated` binding): when the
facade returned no rotated refresh secret, rebuild the facade record with the
previously cached secret copied in so rotation does not drop it. -/
def refresh_updated_record (facade_record : TokenRecord) (new_refresh : Option String)
    (expected_refresh : String) (now : Int) : Except TokenRecordBuilderError TokenRecord :=
  if new_refresh.isSome then .ok facade_record
  else
    (((((TokenRecord.builder facade_record.family facade_record.scope).access_token_set
      facade_record.access_token.expose).issued_at_set facade_record.issued_at).expires_at_set
      facade_record.expires_at).refresh_token_set expected_refresh).build now

/-- Mirrors `Broker::refresh_access_token` from src/flows/refresh.rs.  Metrics
recorders and tracing spans are pure observers and are omitted; `seed`
abstracts the jitter hash, `now` is the single `OffsetDateTime::now_utc()`
read of the body, and `calls` counts facade token-endpoint invocations so
far. -/
def refresh_access_token {σ : Type} (env : RefreshEnv σ) (seed : Nat)
    (req : CachedTokenRequest) (now : Int) (s : σ) (calls : Nat) : FlowOut σ :=
  if env.supports_refresh = false then
    ⟨s, calls, .error (.Config (.UnsupportedGrant env.descriptor_id.value "refresh_token"))⟩
  else
    let family : TokenFamily := ⟨req.tenant, req.principal, some env.descriptor_id⟩
    match env.ops.fetch s family req.scope with
    | (s1, .error e) => ⟨s1, calls, .error (.Storage e)⟩
    | (s1, .ok none) =>
      ⟨s1, calls,
        .error (.InvalidGrant "No cached token record is available for refresh operations.")⟩
    | (s1, .ok (some current)) =>
      if req.should_refresh seed current now = false then ⟨s1, calls, .ok current⟩
      else
        match current.refresh_token with
        | none => ⟨s1, calls, .error (.Config .MissingRefreshToken)⟩
        | some secret =>
          let expected_refresh := secret.expose
          match env.facade_build with
          | .error e => ⟨s1, calls, .error e⟩
          | .ok _ =>
            match env.facade calls with
            | .error err =>
              if is_invalid_grant_or_revoked err then
                let s2 := (env.ops.revoke s1 family req.scope now).1
                ⟨s2, calls + 1, .error err⟩
              else ⟨s1, calls + 1, .error err⟩
            | .ok (facade_record, new_refresh) =>
              match refresh_updated_record facade_record new_refresh expected_refresh now with
              | .error e => ⟨s1, calls + 1, .error (.Config (.TokenBuild e))⟩
              | .ok updated =>
                match env.ops.cas s1 family req.scope (some expected_refresh) updated with
                | (s2, .error e) => ⟨s2, calls + 1, .error (.Storage e)⟩
                | (s2, .ok .Updated) => ⟨s2, calls + 1, .ok updated⟩
                | (s2, .ok .Missing) =>
                  match env.ops.save s2 updated with
                  | (s3, .error e) => ⟨s3, calls + 1, .error (.Storage e)⟩
                  | (s3, .ok _) => ⟨s3, calls + 1, .ok updated⟩
                | (s2, .ok .RefreshMismatch) =>
                  match env.ops.fetch s2 family req.scope with
                  | (s3, .error e) => ⟨s3, calls + 1, .error (.Storage e)⟩
                  | (s3, .ok (some existing)) => ⟨s3, calls + 1, .ok existing⟩
                  | (s3, .ok none) =>
                    match env.ops.save s3 updated with
                    | (s4, .error e) => ⟨s4, calls + 1, .error (.Storage e)⟩
                    | (s4, .ok _) => ⟨s4, calls + 1, .ok updated⟩

/-- Environment of `Broker::client_credentials`, analogous to `RefreshEnv`;
the nth facade exchange yields the nth `facade` entry. -/
structure CcEnv (σ : Type) where
  ops : StoreOps σ
  supports_client_credentials : Bool
  descriptor_id : ProviderId
  facade_build : Except BrokerError Unit
  facade : Nat → Except BrokerError TokenRecord

/-- Mirrors `Broker::client_credentials` from src/flows/client_credentials.rs.  Form
construction and strategy augmentation only shape the outbound HTTP request
and are folded into the abstract `facade` parameter; metrics and spans are
omitted. -/
def client_credentials {σ : Type} (env : CcEnv σ) (seed : Nat) (req : CachedTokenRequest)
    (now : Int) (s : σ) (calls : Nat) : FlowOut σ :=
  if env.supports_client_credentials = false then
    ⟨s, calls, .error (.Config (.UnsupportedGrant env.descriptor_id.value "client_credentials"))⟩
  else
    let family : TokenFamily := ⟨req.tenant, req.principal, some env.descriptor_id⟩
    match env.ops.fetch s family req.scope with
    | (s1, .error e) => ⟨s1, calls, .error (.Storage e)⟩
    | (s1, .ok fetched) =>
      match fetched.filter (fun record => !req.should_refresh seed record now) with
      | some current => ⟨s1, calls, .ok current⟩
      | none =>
        match env.facade_build with
        | .error e => ⟨s1, calls, .error e⟩
        | .ok _ =>
          match env.facade calls with
          | .error e => ⟨s1, calls + 1, .error e⟩
          | .ok record =>
            match env.ops.save s1 record with
            | (s2, .error e) => ⟨s2, calls + 1, .error (.Storage e)⟩
            | (s2, .ok _) => ⟨s2, calls + 1, .ok record⟩

/-- Serialized execution of N `client_credentials` calls on one broker: the
per-StoreKey singleflight guard (`flow_guard` in src/flows/common.rs) makes
concurrent callers execute their guarded bodies in some arrival order, so N
concurrent calls are modeled as that order; the nth entry of `nows` is the
wall-clock read of the nth caller. -/
def run_client_credentials {σ : Type} (env : CcEnv σ) (seed : Nat) (req : CachedTokenRequest) :
    List Int → σ → Nat → σ × Nat × List (Except BrokerError TokenRecord)
  | [], s, calls => (s, calls, [])
  | now :: rest, s, calls =>
    let out := client_credentials env seed req now s calls
    let next := run_client_credentials env seed req rest out.store out.transport_calls
    (next.1, next.2.1, out.result :: next.2.2)

/-- Serialized execution of N `refresh_access_token` calls, as for
`run_client_credentials`. -/
def run_refresh {σ : Type} (env : RefreshEnv σ) (seed : Nat) (req : CachedTokenRequest) :
    List Int → σ → Nat → σ × Nat × List (Except BrokerError TokenRecord)
  | [], s, calls => (s, calls, [])
  | now :: rest, s, calls =>
    let out := refresh_access_token env seed req now s calls
    let next := run_refresh env seed req rest out.store out.transport_calls
    (next.1, next.2.1, out.result :: next.2.2)

/-! Concrete fixtures used to instantiate the theorems below. -/

def tenantW : TenantId := ⟨"tenant-a"⟩

def principalW : PrincipalId := ⟨"princ-a"⟩

def providerW : ProviderId := ⟨"provider-a"⟩

def famW : TokenFamily := ⟨tenantW, principalW, none⟩

def famPW : TokenFamily := ⟨tenantW, principalW, some providerW⟩

def scopeEmptyW : ScopeSet := ⟨[]⟩

/-- A record valid from instant 10 to instant 20. -/
def recW3 : TokenRecord := ⟨famW, scopeEmptyW, ⟨"access"⟩, none, 10, 20, none⟩

/-- A non-forced request whose preemptive window is zero. -/
def reqZeroWindow : CachedTokenRequest := ⟨tenantW, principalW, scopeEmptyW, false, 0⟩

/-- A record whose expiry precedes its issue instant: legitimately
constructible through `TokenRecordBuilder` with an absolute expiry. -/
def recPendingPast : TokenRecord :=
  ⟨famW, scopeEmptyW, ⟨"a"⟩, none, 100 * nsPerSec, 50 * nsPerSec, none⟩

/-- A request with the 60-second default preemptive window. -/
def reqW : CachedTokenRequest := CachedTokenRequest.new tenantW principalW scopeEmptyW

/-- A record fresh until instant 10000 s. -/
def freshRecW : TokenRecord := ⟨famPW, scopeEmptyW, ⟨"T1"⟩, none, 0, 10000 * nsPerSec, none⟩

/-- A cached record already expired at 1 s that still carries refresh "R0". -/
def staleRecW : TokenRecord := ⟨famPW, scopeEmptyW, ⟨"A0"⟩, some ⟨"R0"⟩, 0, nsPerSec, none⟩

/-- The rotated record a refresh exchange returns: access "AS", refresh "R1". -/
def rotRecW : TokenRecord :=
  ⟨famPW, scopeEmptyW, ⟨"AS"⟩, some ⟨"R1"⟩, 100 * nsPerSec, 10000 * nsPerSec, none⟩

/-- A refresh-exchange record carrying no rotated refresh secret. -/
def rotNoRotW : TokenRecord :=
  ⟨famPW, scopeEmptyW, ⟨"A2"⟩, none, 100 * nsPerSec, 10000 * nsPerSec, none⟩

def storeNoneW : StoreMap := fun _ => none

def storeFreshW : StoreMap := fun _ => some freshRecW

def storeStaleW : StoreMap := fun _ => some staleRecW

/-- Client-credentials environment over the in-memory store whose transport
always yields `freshRecW`. -/
def envCcCE : CcEnv StoreMap := ⟨memOps, true, providerW, .ok (), fun _ => .ok freshRecW⟩

/-- A trivial store backend with prescribed fetch and CAS outcomes, used to
instantiate theorems that quantify over arbitrary `StoreOps`. -/
def unitOps (fetched : Option TokenRecord) (cas : CompareAndSwapOutcome) : StoreOps Unit :=
  ⟨fun _ _ _ => ((), .ok fetched), fun _ _ => ((), .ok ()), fun _ _ _ _ _ => ((), .ok cas),
    fun _ _ _ _ => ((), .ok none)⟩

/-- Refresh environment whose exchange fails with InvalidGrant. -/
def envC6W : RefreshEnv Unit :=
  ⟨unitOps (some staleRecW) .Updated, true, providerW, .ok (),
    fun _ => .error (.InvalidGrant "bad refresh token")⟩

/-- Refresh environment whose exchange succeeds without rotating the secret. -/
def envC7W : RefreshEnv Unit :=
  ⟨unitOps (some staleRecW) .Updated, true, providerW, .ok (), fun _ => .ok (rotNoRotW, none)⟩

/-- The rebuilt record for `envC7W`: new access "A2", old refresh "R0". -/
def updW : TokenRecord :=
  ⟨famPW, scopeEmptyW, ⟨"A2"⟩, some ⟨"R0"⟩, 100 * nsPerSec, 10000 * nsPerSec, none⟩

/-- Refresh environment over the in-memory store with a rotating exchange. -/
def envRefreshRunW : RefreshEnv StoreMap :=
  ⟨memOps, true, providerW, .ok (), fun _ => .ok (rotRecW, some "R1")⟩

/-- Classifier context: HTTP 403, no structured OAuth fields, body preview
`access_denied`. -/
def ctxCE : ProviderErrorContext := ⟨.RefreshToken, some 403, none, none, some "access_denied", false⟩

/-- Exactly 128 copies of U+0100: exactly 128 characters but 256 UTF-8 bytes. -/
def idCE : String := String.mk (List.replicate 128 (Char.ofNat 256))

/-- The record built from `expires_in = 0`: it expires the instant it is
issued. -/
def recCE10 : TokenRecord := ⟨famW, scopeEmptyW, ⟨"tok"⟩, none, 0, 0, none⟩

/-! Theorems settling the claims. -/

/-- C3: for a record with `issued_at < expires_at` and no revocation,
`status_at` is Pending strictly before `issued_at`, Active on
`[issued_at, expires_at)`, and Expired from `expires_at` on; and after
`revoke(t0)` on any record, `status_at` is Revoked at every instant. -/
theorem C3_status_monotone (r : TokenRecord) (h1 : r.issued_at < r.expires_at)
    (h2 : r.revoked_at = none) :
    (∀ t : Int, t < r.issued_at → r.status_at t = .Pending) ∧
    (∀ t : Int, r.issued_at ≤ t → t < r.expires_at → r.status_at t = .Active) ∧
    (∀ t : Int, r.expires_at ≤ t → r.status_at t = .Expired) ∧
    (∀ (r2 : TokenRecord) (t0 t : Int), (r2.revoke t0).status_at t = .Revoked) := by
  refine ⟨fun t ht => ?_, fun t ht1 ht2 => ?_, fun t ht => ?_, fun r2 t0 t => ?_⟩
  · simp [TokenRecord.status_at, h2, ht]
  · simp [TokenRecord.status_at, h2, ht2, not_lt.mpr ht1, not_le.mpr ht2]
  · simp [TokenRecord.status_at, h2, not_lt.mpr (le_trans (le_of_lt h1) ht), ht]
  · simp [TokenRecord.status_at, TokenRecord.revoke]

/-- Witness for C3 at the record valid on [10, 20). -/
theorem C3_witness :
    recW3.status_at 5 = .Pending ∧ recW3.status_at 15 = .Active ∧
      recW3.status_at 25 = .Expired ∧ (recW3.revoke 7).status_at 0 = .Revoked :=
  have h := C3_status_monotone recW3 (by decide) (by rfl)
  ⟨h.1 5 (by decide), h.2.1 15 (by decide) (by decide), h.2.2.1 25 (by decide),
    h.2.2.2 recW3 7 0⟩

/-- C10 (amended): a record built from a positive relative `expires_in` with
no absolute expiry satisfies `expires_at > issued_at`; the unamended claim
fails for non-positive durations, which the builder does not reject. -/
theorem C10_expires_after_issue (b : TokenRecordBuilder) (now : Int) (d : Int)
    (r : TokenRecord) (hA : b.expires_at = none) (hD : b.expires_in = some d) (hpos : 0 < d)
    (hb : b.build now = .ok r) : r.issued_at < r.expires_at := by
  unfold TokenRecordBuilder.build at hb
  cases hacc : b.access_token with
  | none => rw [hacc] at hb; exact absurd hb (by simp)
  | some access =>
    rw [hacc, hA, hD] at hb
    simp only [Except.ok.injEq] at hb
    subst hb
    simpa using hpos

/-- Witness for C10 with a 30-minute relative expiry. -/
theorem C10_witness :
    ∃ r : TokenRecord,
      ((((TokenRecord.builder famW scopeEmptyW).access_token_set "tok").issued_at_set
        0).expires_in_set (1800 * nsPerSec)).build 0 = .ok r ∧ r.issued_at < r.expires_at := by
  refine ⟨⟨famW, scopeEmptyW, ⟨"tok"⟩, none, 0, 1800 * nsPerSec, none⟩, by decide, ?_⟩
  exact C10_expires_after_issue
    ((((TokenRecord.builder famW scopeEmptyW).access_token_set "tok").issued_at_set
      0).expires_in_set (1800 * nsPerSec)) 0 (1800 * nsPerSec) _ rfl rfl (by decide) (by decide)

/-- Counterexample to C10 as stated: `expires_in = 0` builds successfully but
the resulting record does not satisfy `expires_at > issued_at`. -/
theorem C10_counterexample :
    ((((TokenRecord.builder famW scopeEmptyW).access_token_set "tok").issued_at_set
      0).expires_in_set 0).build 0 = .ok recCE10 ∧ ¬recCE10.issued_at < recCE10.expires_at := by
  constructor
  · decide
  · decide

/-- C2: on the in-memory store, `compare_and_swap_refresh` returns Missing
and leaves the map untouched when no record exists under the key, replaces
the record and returns Updated when the stored refresh secret matches the
expectation (None matching None, strings compared exactly), and otherwise
returns RefreshMismatch leaving the map untouched. -/
theorem C2_compare_and_swap (map : StoreMap) (family : TokenFamily) (scope : ScopeSet)
    (expected : Option String) (replacement : TokenRecord) :
    (refresh_matches none none = true ∧
      (∀ a b : String, refresh_matches (some ⟨a⟩) (some b) = (a == b)) ∧
      (∀ c : TokenSecret, refresh_matches (some c) none = false) ∧
      (∀ b : String, refresh_matches none (some b) = false)) ∧
    (map (StoreKey.new family scope) = none →
      cas_now map family scope expected replacement = (map, .Missing)) ∧
    (∀ cur : TokenRecord, map (StoreKey.new family scope) = some cur →
      refresh_matches cur.refresh_token expected = true →
      cas_now map family scope expected replacement =
        (mapInsert map (StoreKey.new family scope) replacement, .Updated)) ∧
    (∀ cur : TokenRecord, map (StoreKey.new family scope) = some cur →
      refresh_matches cur.refresh_token expected = false →
      cas_now map family scope expected replacement = (map, .RefreshMismatch)) := by
  refine ⟨⟨rfl, fun a b => rfl, fun c => rfl, fun b => rfl⟩, fun hnone => ?_, fun cur hsome hmat => ?_,
    fun cur hsome hmat => ?_⟩
  · simp [cas_now, hnone]
  · simp [cas_now, hsome, hmat]
  · simp [cas_now, hsome, hmat]

/-- Witness for C2: CAS against the empty store reports Missing and inserts
nothing. -/
theorem C2_witness :
    cas_now storeNoneW famW scopeEmptyW (some "R0") staleRecW = (storeNoneW, .Missing) :=
  (C2_compare_and_swap storeNoneW famW scopeEmptyW (some "R0") staleRecW).2.1 rfl

/-- Boolean success projection for `Except`. -/
def exOk {ε α : Type} : Except ε α → Bool
  | .ok _ => true
  | .error _ => false

theorem validate_view_ok (kind s : String) :
    (exOk (validate_view kind s) = true) ↔
      (¬s = "" ∧ s.data.any rustIsWhitespace = false ∧ ¬utf8Len s > IDENTIFIER_MAX_LEN) := by
  unfold validate_view
  by_cases h0 : s = ""
  · simp [h0, exOk]
  · by_cases h1 : s.data.any rustIsWhitespace = true
    · simp [h0, h1, exOk]
    · by_cases h2 : utf8Len s > IDENTIFIER_MAX_LEN
      · simp [h0, h1, h2, exOk]
      · simp [h0, h1, h2, exOk]

/-- C9 (amended): identifier construction fails on any whitespace character
and on UTF-8 byte length above 128, and succeeds for otherwise-valid strings
of exactly 128 bytes; the unamended claim measured the limit in characters,
but `str::len` counts bytes. -/
theorem C9_identifier_validation (s : String) :
    (s.data.any rustIsWhitespace = true →
      exOk (TenantId.new s) = false ∧ exOk (PrincipalId.new s) = false ∧
        exOk (ProviderId.new s) = false) ∧
    (utf8Len s > IDENTIFIER_MAX_LEN →
      exOk (TenantId.new s) = false ∧ exOk (PrincipalId.new s) = false ∧
        exOk (ProviderId.new s) = false) ∧
    (¬s = "" → s.data.any rustIsWhitespace = false → utf8Len s = IDENTIFIER_MAX_LEN →
      TenantId.new s = .ok ⟨s⟩ ∧ PrincipalId.new s = .ok ⟨s⟩ ∧ ProviderId.new s = .ok ⟨s⟩) := by
  have hfail : ∀ kind : String, ¬(¬s = "" ∧ s.data.any rustIsWhitespace = false ∧
      ¬utf8Len s > IDENTIFIER_MAX_LEN) → exOk (validate_view kind s) = false := by
    intro kind h
    cases hv : exOk (validate_view kind s) with
    | false => rfl
    | true => exact absurd ((validate_view_ok kind s).mp hv) h
  have hmap : ∀ (kind : String), exOk (validate_view kind s) = false →
      ∀ {α : Type} (f : Unit → α), exOk ((validate_view kind s).map f) = false := by
    intro kind h α f
    cases hv : validate_view kind s with
    | ok u => rw [hv] at h; exact absurd h (by simp [exOk])
    | error e => simp [Except.map, exOk]
  refine ⟨fun hws => ?_, fun hlen => ?_, fun h0 hws hlen => ?_⟩
  · have h : ¬(¬s = "" ∧ s.data.any rustIsWhitespace = false ∧
        ¬utf8Len s > IDENTIFIER_MAX_LEN) := by simp [hws]
    exact ⟨hmap _ (hfail "Tenant" h) _, hmap _ (hfail "Principal" h) _,
      hmap _ (hfail "Provider" h) _⟩
  · have h : ¬(¬s = "" ∧ s.data.any rustIsWhitespace = false ∧
        ¬utf8Len s > IDENTIFIER_MAX_LEN) := by
      intro hc
      exact hc.2.2 hlen
    exact ⟨hmap _ (hfail "Tenant" h) _, hmap _ (hfail "Principal" h) _,
      hmap _ (hfail "Provider" h) _⟩
  · have hok : ∀ kind : String, validate_view kind s = .ok () := by
      intro kind
      unfold validate_view
      rw [if_neg h0, if_neg (by simp [hws]), if_neg (by omega)]
    refine ⟨?_, ?_, ?_⟩ <;> simp [TenantId.new, PrincipalId.new, ProviderId.new, hok, Except.map]

set_option maxRecDepth 4000 in
/-- Counterexample to C9 as stated: 128 copies of U+0100 form an otherwise
valid 128-character identifier, yet construction fails because the UTF-8
encoding is 256 bytes. -/
theorem C9_counterexample :
    idCE.data.length = 128 ∧ ¬idCE = "" ∧ idCE.data.any rustIsWhitespace = false ∧
      exOk (TenantId.new idCE) = false ∧ exOk (PrincipalId.new idCE) = false ∧
      exOk (ProviderId.new idCE) = false := by
  refine ⟨by decide, by decide, by decide, by decide, by decide, by decide⟩

set_option maxRecDepth 4000 in
/-- Witness for C9: a whitespace identifier fails and 128 ASCII characters
succeed. -/
theorem C9_witness :
    exOk (TenantId.new " ") = false ∧
      TenantId.new (String.mk (List.replicate 128 (Char.ofNat 97))) =
        .ok ⟨String.mk (List.replicate 128 (Char.ofNat 97))⟩ :=
  ⟨((C9_identifier_validation " ").1 (by decide)).1,
    ((C9_identifier_validation (String.mk (List.replicate 128 (Char.ofNat 97)))).2.2
      (by decide) (by decide) (by decide)).1⟩

theorem preemptive_jitter_eq_spec (window : Int) (seed : Nat) (hw : 0 ≤ window)
    (hub : window ≤ (i64MaxNat : Int) * nsPerSec) :
    preemptive_jitter window seed = spec_jitter window seed := by
  have hub' : window ≤ 9223372036854775807 * 1000000000 := hub
  have hws : whole_seconds window = window / 1000000000 := Int.tdiv_eq_ediv hw (by decide)
  simp only [preemptive_jitter, spec_jitter]
  by_cases h1 : whole_seconds window ≤ 1
  · rw [if_pos h1, max_eq_right h1]
    simp only [Int.toNat_one, Nat.mod_one]
    rw [if_pos (Nat.zero_le _)]
    simp
  · have h2 : 1 < whole_seconds window := lt_of_not_le h1
    have hwsle : whole_seconds window ≤ (u64MaxNat : Int) := by
      simp only [u64MaxNat]
      omega
    rw [if_neg h1, max_eq_left (le_of_lt h2), if_pos hwsle,
      if_neg (show ¬(whole_seconds window).toNat = 0 by omega)]
    by_cases hz : seed % (whole_seconds window).toNat = 0
    · rw [if_pos hz, hz, if_pos (Nat.zero_le _)]
      simp
    · rw [if_neg hz]

theorem preemptive_jitter_bounds (window : Int) (seed : Nat) (hw : 0 ≤ window)
    (hub : window ≤ (i64MaxNat : Int) * nsPerSec) :
    0 ≤ preemptive_jitter window seed ∧ preemptive_jitter window seed ≤ window := by
  have hub' : window ≤ 9223372036854775807 * 1000000000 := hub
  have hws : whole_seconds window = window / 1000000000 := Int.tdiv_eq_ediv hw (by decide)
  simp only [preemptive_jitter]
  by_cases h1 : whole_seconds window ≤ 1
  · rw [if_pos h1]
    exact ⟨le_refl 0, hw⟩
  · have h2 : 1 < whole_seconds window := lt_of_not_le h1
    have hwsle : whole_seconds window ≤ (u64MaxNat : Int) := by
      simp only [u64MaxNat]
      omega
    rw [if_neg h1, if_pos hwsle, if_neg (show ¬(whole_seconds window).toNat = 0 by omega)]
    by_cases hz : seed % (whole_seconds window).toNat = 0
    · rw [if_pos hz]
      exact ⟨le_refl 0, hw⟩
    · rw [if_neg hz]
      have hlt : seed % (whole_seconds window).toNat < (whole_seconds window).toNat :=
        Nat.mod_lt _ (by omega)
      have hcl : seed % (whole_seconds window).toNat ≤ i64MaxNat := by
        simp only [i64MaxNat]
        have : (whole_seconds window).toNat ≤ 9223372036854775807 := by omega
        omega
      rw [if_pos hcl]
      simp only [nsPerSec]
      omega

/-- C5 (amended): the jitter is the abstracted 64-bit tuple hash modulo
`max(window_in_seconds, 1)` clamped to i64 exactly as claimed, and
`should_refresh` is true exactly when forced, revoked, expired, or the
effective window is positive and `expires_at - now` is within it; the
unamended claim omitted the positivity guard, which the code enforces by
returning false whenever the effective window is zero. -/
theorem C5_should_refresh_characterization (req : CachedTokenRequest) (seed : Nat)
    (record : TokenRecord) (now : Int) (hw : 0 ≤ req.preemptive_window)
    (hub : req.preemptive_window ≤ (i64MaxNat : Int) * nsPerSec) :
    preemptive_jitter req.preemptive_window seed = spec_jitter req.preemptive_window seed ∧
    req.should_refresh seed record now =
      (req.force || record.is_revoked || record.is_expired_at now ||
        (decide (0 < spec_effective_window req.preemptive_window seed) &&
          decide (record.expires_at - now ≤
            spec_effective_window req.preemptive_window seed))) := by
  obtain ⟨hj0, hjle⟩ := preemptive_jitter_bounds req.preemptive_window seed hw hub
  have hje := preemptive_jitter_eq_spec req.preemptive_window seed hw hub
  refine ⟨hje, ?_⟩
  have hmax : max 0 (req.preemptive_window - preemptive_jitter req.preemptive_window seed) =
      req.preemptive_window - preemptive_jitter req.preemptive_window seed :=
    max_eq_right (by omega)
  simp only [CachedTokenRequest.should_refresh, spec_effective_window,
    effective_preemptive_window, ← hje, hmax]
  by_cases hA : (req.force || record.is_revoked || record.is_expired_at now) = true
  · simp [hA]
  · have hA' : (req.force || record.is_revoked || record.is_expired_at now) = false := by
      simpa using hA
    simp only [hA', Bool.false_eq_true, if_false, Bool.false_or]
    by_cases hz : req.preemptive_window - preemptive_jitter req.preemptive_window seed = 0
    · rw [if_pos hz, hz]
      simp
    · rw [if_neg hz]
      have hpos : 0 < req.preemptive_window - preemptive_jitter req.preemptive_window seed := by
        omega
      simp [hpos]

/-- Counterexample to C5 as stated: with a zero preemptive window and a
record whose expiry precedes its issue instant, the claimed formula says
refresh (remaining ≤ 0 = effective window) but the code returns false. -/
theorem C5_counterexample :
    CachedTokenRequest.should_refresh reqZeroWindow 0 recPendingPast (60 * nsPerSec) = false ∧
      spec_should_refresh reqZeroWindow 0 recPendingPast (60 * nsPerSec) = true := by
  exact ⟨by decide, by decide⟩

/-- Witness for C5 at the default 60-second window and a fresh record. -/
theorem C5_witness :
    reqW.should_refresh 0 freshRecW (100 * nsPerSec) =
      (reqW.force || freshRecW.is_revoked || freshRecW.is_expired_at (100 * nsPerSec) ||
        (decide (0 < spec_effective_window reqW.preemptive_window 0) &&
          decide (freshRecW.expires_at - 100 * nsPerSec ≤
            spec_effective_window reqW.preemptive_window 0))) :=
  (C5_should_refresh_characterization reqW 0 freshRecW (100 * nsPerSec) (by decide)
    (by decide)).2

theorem charListLt_irrefl (l : List Char) : charListLt l l = false := by
  induction l with
  | nil => rfl
  | cons c r ih => simp [charListLt, ih]

theorem charListLt_trans (a : List Char) : ∀ b c : List Char,
    charListLt a b = true → charListLt b c = true → charListLt a c = true := by
  induction a with
  | nil =>
    intro b c _ hbc
    cases c with
    | nil => cases b <;> simp [charListLt] at hbc
    | cons z zs => rfl
  | cons x xs ih =>
    intro b c hab hbc
    cases b with
    | nil => simp [charListLt] at hab
    | cons y ys =>
      cases c with
      | nil => simp [charListLt] at hbc
      | cons z zs =>
        simp only [charListLt] at hab hbc ⊢
        by_cases h1 : x.toNat < y.toNat
        · by_cases h2 : y.toNat < z.toNat
          · rw [if_pos (by omega)]
          · rw [if_pos h1] at hab
            rw [if_neg h2] at hbc
            by_cases h3 : z.toNat < y.toNat
            · rw [if_pos h3] at hbc
              exact absurd hbc (by simp)
            · rw [if_pos (by omega)]
        · rw [if_neg h1] at hab
          by_cases h3 : y.toNat < x.toNat
          · rw [if_pos h3] at hab
            exact absurd hab (by simp)
          · rw [if_neg h3] at hab
            by_cases h2 : y.toNat < z.toNat
            · rw [if_pos (by omega)]
            · rw [if_neg h2] at hbc
              by_cases h4 : z.toNat < y.toNat
              · rw [if_pos h4] at hbc
                exact absurd hbc (by simp)
              · rw [if_neg h4] at hbc
                rw [if_neg (by omega), if_neg (by omega)]
                exact ih ys zs hab hbc

theorem char_eq_of_toNat_eq (a b : Char) (h : a.toNat = b.toNat) : a = b := by
  have hv : a.val = b.val := by
    unfold Char.toNat at h
    exact UInt32.toNat.inj h
  exact Char.eq_of_val_eq hv

theorem charListLt_total (a : List Char) : ∀ b : List Char,
    charListLt a b = false → a ≠ b → charListLt b a = true := by
  induction a with
  | nil =>
    intro b h hne
    cases b with
    | nil => exact absurd rfl hne
    | cons y ys => simp [charListLt] at h
  | cons x xs ih =>
    intro b h hne
    cases b with
    | nil => rfl
    | cons y ys =>
      simp only [charListLt] at h ⊢
      by_cases h1 : x.toNat < y.toNat
      · rw [if_pos h1] at h
        exact absurd h (by simp)
      · rw [if_neg h1] at h
        by_cases h2 : y.toNat < x.toNat
        · rw [if_pos h2]
        · rw [if_neg h2] at h
          have hxy : x = y := char_eq_of_toNat_eq x y (by omega)
          rw [if_neg (by omega), if_neg (by omega)]
          refine ih ys h fun he => hne ?_
          rw [hxy, he]

theorem str_eq_of_data_eq (a b : String) (h : a.data = b.data) : a = b := by
  cases a
  cases b
  simp_all

theorem strLt_irrefl (a : String) : strLt a a = false := charListLt_irrefl a.data

theorem strLt_trans (a b c : String) (hab : strLt a b = true) (hbc : strLt b c = true) :
    strLt a c = true := charListLt_trans a.data b.data c.data hab hbc

theorem strLt_total (a b : String) (h : strLt a b = false) (hne : ¬a = b) :
    strLt b a = true :=
  charListLt_total a.data b.data h fun he => hne (str_eq_of_data_eq a b he)

theorem mem_insertSorted (x a : String) (l : List String) :
    a ∈ insertSorted x l ↔ a = x ∨ a ∈ l := by
  induction l with
  | nil => simp [insertSorted]
  | cons y ys ih =>
    unfold insertSorted
    by_cases h1 : strLt x y = true
    · rw [if_pos h1]
      simp [List.mem_cons]
    · rw [if_neg h1]
      by_cases h2 : x = y
      · subst h2
        rw [if_pos rfl]
        simp [List.mem_cons]
      · rw [if_neg h2]
        simp [List.mem_cons, ih]
        tauto

theorem sorted_insertSorted (x : String) (l : List String)
    (hs : l.Sorted fun a b => strLt a b = true) :
    (insertSorted x l).Sorted fun a b => strLt a b = true := by
  induction l with
  | nil => simp [insertSorted]
  | cons y ys ih =>
    rw [List.sorted_cons] at hs
    unfold insertSorted
    by_cases h1 : strLt x y = true
    · rw [if_pos h1, List.sorted_cons, List.sorted_cons]
      refine ⟨fun b hb => ?_, hs.1, hs.2⟩
      rcases List.mem_cons.mp hb with hb | hb
      · exact hb ▸ h1
      · exact strLt_trans x y b h1 (hs.1 b hb)
    · rw [if_neg h1]
      by_cases h2 : x = y
      · rw [if_pos h2, List.sorted_cons]
        exact hs
      · rw [if_neg h2, List.sorted_cons]
        have hyx : strLt y x = true :=
          strLt_total x y (Bool.eq_false_iff.mpr h1) h2
        refine ⟨fun b hb => ?_, ih hs.2⟩
        rcases (mem_insertSorted x b ys).mp hb with hb | hb
        · exact hb ▸ hyx
        · exact hs.1 b hb

theorem normalizeAux_mem (l : List String) :
    ∀ acc r : List String, normalizeAux acc l = .ok r → ∀ a, a ∈ r ↔ a ∈ acc ∨ a ∈ l := by
  induction l with
  | nil =>
    intro acc r h a
    simp [normalizeAux] at h
    subst h
    simp
  | cons s rest ih =>
    intro acc r h a
    unfold normalizeAux at h
    by_cases h0 : s = ""
    · rw [if_pos h0] at h
      exact absurd h (by simp)
    · rw [if_neg h0] at h
      by_cases h1 : s.data.any rustIsWhitespace = true
      · rw [if_pos h1] at h
        exact absurd h (by simp)
      · rw [if_neg h1] at h
        rw [ih (insertSorted s acc) r h a, mem_insertSorted]
        simp [List.mem_cons]
        tauto

theorem normalizeAux_sorted (l : List String) :
    ∀ acc r : List String, (acc.Sorted fun a b => strLt a b = true) →
      normalizeAux acc l = .ok r → r.Sorted fun a b => strLt a b = true := by
  induction l with
  | nil =>
    intro acc r hs h
    simp [normalizeAux] at h
    subst h
    exact hs
  | cons s rest ih =>
    intro acc r hs h
    unfold normalizeAux at h
    by_cases h0 : s = ""
    · rw [if_pos h0] at h
      exact absurd h (by simp)
    · rw [if_neg h0] at h
      by_cases h1 : s.data.any rustIsWhitespace = true
      · rw [if_pos h1] at h
        exact absurd h (by simp)
      · rw [if_neg h1] at h
        exact ih (insertSorted s acc) r (sorted_insertSorted s acc hs) h

theorem normalize_eq_of_perm (l1 l2 r1 r2 : List String) (hp : l1.Perm l2)
    (h1 : normalize l1 = .ok r1) (h2 : normalize l2 = .ok r2) : r1 = r2 := by
  haveI : IsIrrefl String fun a b => strLt a b = true :=
    ⟨fun a h => by rw [strLt_irrefl a] at h; exact absurd h (by simp)⟩
  haveI : IsAntisymm String fun a b => strLt a b = true :=
    ⟨fun a b hab hba => by
      have := strLt_trans a b a hab hba
      rw [strLt_irrefl a] at this
      exact absurd this (by simp)⟩
  have hs1 : r1.Sorted fun a b => strLt a b = true :=
    normalizeAux_sorted l1 [] r1 (by simp) h1
  have hs2 : r2.Sorted fun a b => strLt a b = true :=
    normalizeAux_sorted l2 [] r2 (by simp) h2
  have hmem : ∀ a, a ∈ r1 ↔ a ∈ r2 := by
    intro a
    rw [normalizeAux_mem l1 [] r1 h1 a, normalizeAux_mem l2 [] r2 h2 a]
    simp [hp.mem_iff]
  exact List.eq_of_perm_of_sorted
    ((List.perm_ext_iff_of_nodup hs1.nodup hs2.nodup).mpr hmem) hs1 hs2

/-- C4: any two ScopeSets successfully constructed from inputs with equal
multisets of scope strings agree on `fingerprint()`, and `StoreKey::new`
over the same family and either ScopeSet yields equal keys. -/
theorem C4_fingerprint_stability (l1 l2 : List String) (s1 s2 : ScopeSet)
    (hm : (l1 : Multiset String) = (l2 : Multiset String))
    (h1 : ScopeSet.new l1 = .ok s1) (h2 : ScopeSet.new l2 = .ok s2) :
    s1.fingerprint = s2.fingerprint ∧
      ∀ family : TokenFamily, StoreKey.new family s1 = StoreKey.new family s2 := by
  obtain ⟨r1, hr1, hs1⟩ : ∃ r, normalize l1 = .ok r ∧ s1 = ⟨r⟩ := by
    unfold ScopeSet.new at h1
    cases hn : normalize l1 with
    | ok r =>
      rw [hn] at h1
      simp only [Except.map, Except.ok.injEq] at h1
      exact ⟨r, rfl, h1.symm⟩
    | error e =>
      rw [hn] at h1
      exact absurd h1 (by simp [Except.map])
  obtain ⟨r2, hr2, hs2⟩ : ∃ r, normalize l2 = .ok r ∧ s2 = ⟨r⟩ := by
    unfold ScopeSet.new at h2
    cases hn : normalize l2 with
    | ok r =>
      rw [hn] at h2
      simp only [Except.map, Except.ok.injEq] at h2
      exact ⟨r, rfl, h2.symm⟩
    | error e =>
      rw [hn] at h2
      exact absurd h2 (by simp [Except.map])
  have hperm : l1.Perm l2 := Multiset.coe_eq_coe.mp hm
  have heq : r1 = r2 := normalize_eq_of_perm l1 l2 r1 r2 hperm hr1 hr2
  subst hs1
  subst hs2
  subst heq
  exact ⟨rfl, fun family => rfl⟩

/-- Witness for C4 on two orderings of the same two scopes. -/
theorem C4_witness :
    ∃ s1 s2 : ScopeSet, ScopeSet.new ["profile", "email"] = .ok s1 ∧
      ScopeSet.new ["email", "profile"] = .ok s2 ∧ s1.fingerprint = s2.fingerprint ∧
      StoreKey.new famW s1 = StoreKey.new famW s2 := by
  refine ⟨⟨["email", "profile"]⟩, ⟨["email", "profile"]⟩, by decide, by decide, ?_, ?_⟩
  · exact (C4_fingerprint_stability ["profile", "email"] ["email", "profile"] _ _ (by decide)
      (by decide) (by decide)).1
  · exact (C4_fingerprint_stability ["profile", "email"] ["email", "profile"] _ _ (by decide)
      (by decide) (by decide)).2 famW

theorem match_exact_value_eq_spec (v : String) : match_exact_value v = spec_exact_match v := by
  unfold match_exact_value spec_exact_match specExactTokens
  by_cases h1 : eq_ignore_ascii_case v "invalid_grant" = true <;>
    by_cases h2 : eq_ignore_ascii_case v "access_denied" = true <;>
      by_cases h3 : eq_ignore_ascii_case v "invalid_client" = true <;>
        by_cases h4 : eq_ignore_ascii_case v "unauthorized_client" = true <;>
          by_cases h5 : eq_ignore_ascii_case v "invalid_scope" = true <;>
            by_cases h6 : eq_ignore_ascii_case v "insufficient_scope" = true <;>
              by_cases h7 : eq_ignore_ascii_case v "temporarily_unavailable" = true <;>
                by_cases h8 : eq_ignore_ascii_case v "server_error" = true <;>
                  simp [h1, h2, h3, h4, h5, h6, h7, h8, List.findSome?_cons]

theorem classify_body_eq_spec_scan (v : Option String) :
    classify_body v = v.bind (spec_scan specAmendedScanTokens) := by
  cases v with
  | none => rfl
  | some b =>
    show classify_body (some b) = spec_scan specAmendedScanTokens b
    unfold classify_body spec_scan specAmendedScanTokens
    by_cases h1 : strContains (to_ascii_lowercase b) "invalid_grant" = true <;>
      by_cases h2 : strContains (to_ascii_lowercase b) "invalid_client" = true <;>
        by_cases h3 : strContains (to_ascii_lowercase b) "insufficient_scope" = true <;>
          by_cases h4 : strContains (to_ascii_lowercase b) "invalid_scope" = true <;>
            by_cases h5 : strContains (to_ascii_lowercase b) "temporarily_unavailable" = true <;>
              by_cases h6 : strContains (to_ascii_lowercase b) "retry" = true <;>
                simp [h1, h2, h3, h4, h5, h6, List.findSome?_cons]

theorem classify_status_eq_spec (s : Option Nat) :
    classify_status s = spec_status_fallback s := by
  unfold classify_status spec_status_fallback
  rfl

/-- C8 (amended): the default classifier follows exactly the claimed
precedence — network flag, exact `oauth_error` match, exact
`error_description` match, substring scan of `error_description`, substring
scan of `body_preview`, status fallback — but the substring scan only covers
`invalid_grant`, `invalid_client`, `insufficient_scope`, `invalid_scope`,
`temporarily_unavailable` and `retry`; `access_denied`, `unauthorized_client`
and `server_error` are matched exactly, never as substrings. -/
theorem C8_classifier_precedence (ctx : ProviderErrorContext) :
    classify_token_error ctx = spec_classify_amended ctx := by
  have hbind : ∀ o : Option String, o.bind spec_exact_match = o.bind match_exact_value := by
    intro o
    cases o with
    | none => rfl
    | some v =>
      show spec_exact_match v = match_exact_value v
      rw [match_exact_value_eq_spec]
  unfold classify_token_error spec_classify_amended spec_classify classify_oauth_error
  by_cases hnet : ctx.network_error = true
  · simp [hnet]
  · simp only [hnet, Bool.false_eq_true, if_false]
    rw [hbind ctx.oauth_error, hbind ctx.error_description,
      ← classify_body_eq_spec_scan ctx.error_description,
      ← classify_body_eq_spec_scan ctx.body_preview, ← classify_status_eq_spec ctx.http_status]
    cases h1 : ctx.oauth_error.bind match_exact_value with
    | some k => simp [h1]
    | none =>
      cases h2 : ctx.error_description.bind match_exact_value with
      | some k => simp [h1, h2]
      | none =>
        cases h3 : classify_body ctx.error_description with
        | some k => simp [h1, h2, h3]
        | none =>
          cases h4 : classify_body ctx.body_preview with
          | some k => simp [h1, h2, h3, h4]
          | none => simp [h1, h2, h3, h4]

/-- Counterexample to C8 as stated: a body preview of `access_denied` under
HTTP 403 is classified through the status fallback as InsufficientScope,
while the claimed substring scan over all step-2 tokens would classify it as
InvalidGrant. -/
theorem C8_counterexample :
    classify_token_error ctxCE = .InsufficientScope ∧
      spec_classify_claim ctxCE = .InvalidGrant ∧
      ¬classify_token_error ctxCE = spec_classify_claim ctxCE := by
  refine ⟨by decide, by decide, by decide⟩

/-- C6: when the refresh exchange fails, the flow revokes the cached record
(its outcome discarded) exactly when the error kind is InvalidGrant or
Revoked, and always propagates the original error unchanged; any other kind
leaves the store untouched after the fetch. -/
theorem C6_refresh_error_revocation {σ : Type} (ops : StoreOps σ) (did : ProviderId)
    (fac : Nat → Except BrokerError (TokenRecord × Option String)) (seed : Nat)
    (req : CachedTokenRequest) (now : Int) (s s1 : σ) (calls : Nat) (current : TokenRecord)
    (sec : TokenSecret) (err : BrokerError)
    (hfetch : ops.fetch s ⟨req.tenant, req.principal, some did⟩ req.scope =
      (s1, .ok (some current)))
    (hstale : req.should_refresh seed current now = true)
    (hsec : current.refresh_token = some sec)
    (hfac : fac calls = .error err) :
    (refresh_access_token ⟨ops, true, did, .ok (), fac⟩ seed req now s calls).result =
      .error err ∧
    (refresh_access_token ⟨ops, true, did, .ok (), fac⟩ seed req now s calls).store =
      (if is_invalid_grant_or_revoked err then
        (ops.revoke s1 ⟨req.tenant, req.principal, some did⟩ req.scope now).1
      else s1) := by
  constructor <;>
  · unfold refresh_access_token
    simp only [hfetch, hstale, hsec, hfac]
    by_cases hk : is_invalid_grant_or_revoked err = true <;> simp [hk]

/-- C7: when the refresh exchange succeeds without rotating the secret, the
record the flow rebuilds, hands to `compare_and_swap_refresh` and returns
carries the previously cached refresh secret unchanged together with the
facade record's new access token and expiry. -/
theorem C7_refresh_preserves_refresh_secret {σ : Type} (ops : StoreOps σ) (did : ProviderId)
    (fac : Nat → Except BrokerError (TokenRecord × Option String)) (seed : Nat)
    (req : CachedTokenRequest) (now : Int) (s s1 s2 : σ) (calls : Nat)
    (current facade_record upd : TokenRecord) (sec : TokenSecret)
    (hfetch : ops.fetch s ⟨req.tenant, req.principal, some did⟩ req.scope =
      (s1, .ok (some current)))
    (hstale : req.should_refresh seed current now = true)
    (hsec : current.refresh_token = some sec)
    (hfac : fac calls = .ok (facade_record, none))
    (hupd : refresh_updated_record facade_record none sec.expose now = .ok upd)
    (hcas : ops.cas s1 ⟨req.tenant, req.principal, some did⟩ req.scope (some sec.expose) upd =
      (s2, .ok .Updated)) :
    (refresh_access_token ⟨ops, true, did, .ok (), fac⟩ seed req now s calls).result =
      .ok upd ∧
    (refresh_access_token ⟨ops, true, did, .ok (), fac⟩ seed req now s calls).store = s2 ∧
    upd.refresh_token = some sec ∧
    upd.access_token = facade_record.access_token ∧
    upd.issued_at = facade_record.issued_at ∧
    upd.expires_at = facade_record.expires_at := by
  have hupd2 : upd = ⟨facade_record.family, facade_record.scope, facade_record.access_token,
      some sec, facade_record.issued_at, facade_record.expires_at, none⟩ := by
    unfold refresh_updated_record at hupd
    simp only [Option.isSome_none, Bool.false_eq_true, if_false, TokenRecord.builder,
      TokenRecordBuilder.access_token_set, TokenRecordBuilder.issued_at_set,
      TokenRecordBuilder.expires_at_set, TokenRecordBuilder.refresh_token_set,
      TokenRecordBuilder.build, TokenSecret.new, TokenSecret.expose, Option.getD,
      Except.ok.injEq] at hupd
    exact hupd.symm
  refine ⟨?_, ?_, ?_, ?_, ?_, ?_⟩
  · unfold refresh_access_token
    simp only [hfetch, hstale, hsec, hfac, hupd, hcas]
    simp
  · unfold refresh_access_token
    simp only [hfetch, hstale, hsec, hfac, hupd, hcas]
    simp
  · rw [hupd2]
  · rw [hupd2]
  · rw [hupd2]
  · rw [hupd2]

/-- Witness for C6: an InvalidGrant refresh failure is propagated unchanged
and the revoke hook is exercised. -/
theorem C6_witness :
    (refresh_access_token envC6W 0 reqW (100 * nsPerSec) () 0).result =
      .error (.InvalidGrant "bad refresh token") ∧
    (refresh_access_token envC6W 0 reqW (100 * nsPerSec) () 0).store =
      (if is_invalid_grant_or_revoked (.InvalidGrant "bad refresh token") then
        ((unitOps (some staleRecW) .Updated).revoke ()
          ⟨reqW.tenant, reqW.principal, some providerW⟩ reqW.scope (100 * nsPerSec)).1
      else ()) :=
  C6_refresh_error_revocation (unitOps (some staleRecW) .Updated) providerW
    (fun _ => .error (.InvalidGrant "bad refresh token")) 0 reqW (100 * nsPerSec) () () 0
    staleRecW ⟨"R0"⟩ (.InvalidGrant "bad refresh token") rfl (by decide) rfl rfl

/-- Witness for C7: access "A2" arrives while refresh "R0" is preserved. -/
theorem C7_witness :
    (refresh_access_token envC7W 0 reqW (100 * nsPerSec) () 0).result = .ok updW ∧
    (refresh_access_token envC7W 0 reqW (100 * nsPerSec) () 0).store = () ∧
    updW.refresh_token = some ⟨"R0"⟩ ∧
    updW.access_token = rotNoRotW.access_token ∧
    updW.issued_at = rotNoRotW.issued_at ∧
    updW.expires_at = rotNoRotW.expires_at :=
  C7_refresh_preserves_refresh_secret (unitOps (some staleRecW) .Updated) providerW
    (fun _ => .ok (rotNoRotW, none)) 0 reqW (100 * nsPerSec) () () () 0 staleRecW rotNoRotW
    updW ⟨"R0"⟩ rfl (by decide) rfl rfl (by decide) rfl

theorem run_cc_all_hits (did : ProviderId) (req : CachedTokenRequest) (seed : Nat)
    (R : TokenRecord) (fb : Except BrokerError Unit)
    (fac : Nat → Except BrokerError TokenRecord) (nows : List Int) :
    ∀ (s : StoreMap) (calls : Nat),
      s (StoreKey.new ⟨req.tenant, req.principal, some did⟩ req.scope) = some R →
      (∀ t ∈ nows, req.should_refresh seed R t = false) →
      run_client_credentials ⟨memOps, true, did, fb, fac⟩ seed req nows s calls =
        (s, calls, nows.map fun _ => .ok R) := by
  induction nows with
  | nil =>
    intro s calls _ _
    simp [run_client_credentials]
  | cons t rest ih =>
    intro s calls hs hfresh
    have hout : client_credentials ⟨memOps, true, did, fb, fac⟩ seed req t s calls =
        ⟨s, calls, .ok R⟩ := by
      unfold client_credentials
      simp only [memOps, fetch_now, hs]
      simp [Option.filter, hfresh t (by simp)]
    unfold run_client_credentials
    rw [hout]
    dsimp only
    rw [ih s calls hs fun t2 ht2 => hfresh t2 (by simp [ht2])]
    rfl

theorem run_refresh_all_hits (did : ProviderId) (req : CachedTokenRequest) (seed : Nat)
    (R : TokenRecord) (fb : Except BrokerError Unit)
    (fac : Nat → Except BrokerError (TokenRecord × Option String)) (nows : List Int) :
    ∀ (s : StoreMap) (calls : Nat),
      s (StoreKey.new ⟨req.tenant, req.principal, some did⟩ req.scope) = some R →
      (∀ t ∈ nows, req.should_refresh seed R t = false) →
      run_refresh ⟨memOps, true, did, fb, fac⟩ seed req nows s calls =
        (s, calls, nows.map fun _ => .ok R) := by
  induction nows with
  | nil =>
    intro s calls _ _
    simp [run_refresh]
  | cons t rest ih =>
    intro s calls hs hfresh
    have hout : refresh_access_token ⟨memOps, true, did, fb, fac⟩ seed req t s calls =
        ⟨s, calls, .ok R⟩ := by
      unfold refresh_access_token
      simp only [memOps, fetch_now, hs]
      simp [hfresh t (by simp)]
    unfold run_refresh
    rw [hout]
    dsimp only
    rw [ih s calls hs fun t2 ht2 => hfresh t2 (by simp [ht2])]
    rfl

/-- C1 (amended): the per-key singleflight guard serializes concurrent
callers, modeled as an arbitrary arrival order of guarded bodies.  For N ≥ 1
serialized `client_credentials` calls whose initially cached record (if any)
is stale for the first caller and whose transport record is fresh for every
follower, exactly one transport invocation occurs, every caller receives the
transport record, and the followers answer from the leader's cache update;
the same holds for `refresh_access_token` when the cached record holds the
expected refresh secret and the exchange rotates it.  The unamended claim is
false: a caller finding a fresh cached record performs zero transport
invocations, and forced or immediately-stale records cause more than one. -/
theorem C1_singleflight_serialized :
    (∀ (did : ProviderId) (req : CachedTokenRequest) (seed : Nat) (R : TokenRecord)
      (s0 : StoreMap) (now1 : Int) (rest : List Int),
      R.family = ⟨req.tenant, req.principal, some did⟩ →
      R.scope = req.scope →
      (∀ r : TokenRecord,
        s0 (StoreKey.new ⟨req.tenant, req.principal, some did⟩ req.scope) = some r →
        req.should_refresh seed r now1 = true) →
      (∀ t ∈ rest, req.should_refresh seed R t = false) →
      run_client_credentials ⟨memOps, true, did, .ok (), fun _ => .ok R⟩ seed req
          (now1 :: rest) s0 0 =
        (mapInsert s0 (StoreKey.new ⟨req.tenant, req.principal, some did⟩ req.scope) R, 1,
          .ok R :: rest.map fun _ => .ok R)) ∧
    (∀ (did : ProviderId) (req : CachedTokenRequest) (seed : Nat) (r0 R : TokenRecord)
      (sec newsec : String) (s0 : StoreMap) (now1 : Int) (rest : List Int),
      s0 (StoreKey.new ⟨req.tenant, req.principal, some did⟩ req.scope) = some r0 →
      req.should_refresh seed r0 now1 = true →
      r0.refresh_token = some ⟨sec⟩ →
      (∀ t ∈ rest, req.should_refresh seed R t = false) →
      run_refresh ⟨memOps, true, did, .ok (), fun _ => .ok (R, some newsec)⟩ seed req
          (now1 :: rest) s0 0 =
        (mapInsert s0 (StoreKey.new ⟨req.tenant, req.principal, some did⟩ req.scope) R, 1,
          .ok R :: rest.map fun _ => .ok R)) := by
  constructor
  · intro did req seed R s0 now1 rest hRf hRs hstale hfresh
    have hleader : client_credentials ⟨memOps, true, did, .ok (), fun _ => .ok R⟩ seed req
        now1 s0 0 =
        ⟨mapInsert s0 (StoreKey.new ⟨req.tenant, req.principal, some did⟩ req.scope) R, 1,
          .ok R⟩ := by
      unfold client_credentials
      simp only [memOps, fetch_now, save_now]
      cases hcur : s0 (StoreKey.new ⟨req.tenant, req.principal, some did⟩ req.scope) with
      | none => simp [Option.filter, hRf, hRs]
      | some r => simp [Option.filter, hstale r hcur, hRf, hRs]
    unfold run_client_credentials
    rw [hleader]
    dsimp only
    rw [run_cc_all_hits did req seed R (.ok ()) (fun _ => .ok R) rest _ 1
      (by simp [mapInsert]) fun t2 ht2 => hfresh t2 ht2]
  · intro did req seed r0 R sec newsec s0 now1 rest hs0 hstale hr0 hfresh
    have hleader : refresh_access_token ⟨memOps, true, did, .ok (),
        fun _ => .ok (R, some newsec)⟩ seed req now1 s0 0 =
        ⟨mapInsert s0 (StoreKey.new ⟨req.tenant, req.principal, some did⟩ req.scope) R, 1,
          .ok R⟩ := by
      unfold refresh_access_token
      simp only [memOps, fetch_now, hs0, hstale, hr0]
      simp [refresh_updated_record, cas_now, hs0, refresh_matches, TokenSecret.expose, hr0]
    unfold run_refresh
    rw [hleader]
    dsimp only
    rw [run_refresh_all_hits did req seed R (.ok ())
      (fun _ => .ok (R, some newsec)) rest _ 1 (by simp [mapInsert])
      fun t2 ht2 => hfresh t2 ht2]

/-- Witness for C1: two serialized callers, empty cache for the
client-credentials leg and a stale seeded record for the refresh leg; one
transport invocation each, both callers get the fresh record. -/
theorem C1_witness :
    run_client_credentials ⟨memOps, true, providerW, .ok (), fun _ => .ok freshRecW⟩ 0 reqW
        [100 * nsPerSec, 200 * nsPerSec] storeNoneW 0 =
      (mapInsert storeNoneW
        (StoreKey.new ⟨reqW.tenant, reqW.principal, some providerW⟩ reqW.scope) freshRecW, 1,
        [.ok freshRecW, .ok freshRecW]) ∧
    run_refresh ⟨memOps, true, providerW, .ok (), fun _ => .ok (rotRecW, some "R1")⟩ 0 reqW
        [100 * nsPerSec, 200 * nsPerSec] storeStaleW 0 =
      (mapInsert storeStaleW
        (StoreKey.new ⟨reqW.tenant, reqW.principal, some providerW⟩ reqW.scope) rotRecW, 1,
        [.ok rotRecW, .ok rotRecW]) :=
  ⟨C1_singleflight_serialized.1 providerW reqW 0 freshRecW storeNoneW (100 * nsPerSec)
      [200 * nsPerSec] rfl rfl (fun r h => Option.noConfusion h) (by decide),
    C1_singleflight_serialized.2 providerW reqW 0 staleRecW rotRecW "R0" "R1" storeStaleW
      (100 * nsPerSec) [200 * nsPerSec] rfl (by decide) rfl (by decide)⟩

/-- Counterexample to C1 as stated: a single call (N = 1) that finds a fresh
cached record returns it from the cache, so the number of transport
invocations is zero, not exactly one. -/
theorem C1_counterexample :
    (run_client_credentials envCcCE 0 reqW [100 * nsPerSec] storeFreshW 0).2.1 = 0 ∧
      ¬(run_client_credentials envCcCE 0 reqW [100 * nsPerSec] storeFreshW 0).2.1 = 1 := by
  constructor
  · rfl
  · decide

end OAuth2Broker
